import Mathlib

/-!
Shallow embedding of `suds/schema.py` (module `suds.schema`): the XML-Schema
type-resolution engine.  Python classes become Lean structures/inductives,
methods become functions; the mutable lookup cache of `Schema` is threaded as
explicit state.  CPython 2 runtime semantics that the code relies on (mixed
int/str ordering, `except` clause matching, `dict.get` sentinel behaviour,
stable `list.sort`) are embedded explicitly and documented at each definition.
-/

namespace Suds

/-- External node view over a parsed XML element (the sax collaborator):
tag name, attribute list (first binding wins, as a dict) and child nodes. -/
structure Node where
  name : String
  attrs : List (String × String)
  children : List Node

/-- `root.attribute(name)`: the attribute's value, or `none` when absent
(the Python default `None`). -/
def Node.attribute (n : Node) (k : String) : Option String :=
  match n.attrs.lookup k with
  | some v => some v
  | none => none

/-- A CPython 2 value as it flows through `Element.unbounded`: the local
`max` is either the attribute's string or the int default `1`. -/
inductive PyVal where
  | int (n : Int)
  | str (s : String)

/-- CPython 2 evaluation of `max > 1` (`1` an int literal): ints compare
numerically, while a `str` compares greater than every `int` because
CPython 2 orders values of different types by type name and
`'int' < 'str'`. -/
def PyVal.gtIntOne : PyVal → Bool
  | .int n => 1 < n
  | .str _ => true

/-- CPython 2 evaluation of `max == 'unbounded'`: an int never equals a
string; a string compares by content. -/
def PyVal.eqStrUnbounded : PyVal → Bool
  | .int _ => false
  | .str s => s == "unbounded"

/-- `Element.unbounded` (schema.py:330-333):
`max = self.root.attribute('maxOccurs', default=1)` followed by
`return (max > 1 or max == 'unbounded')`.  A present attribute arrives as a
string, the absent default as the int `1`. -/
def Element.unbounded (root : Node) : Bool :=
  let max := match root.attribute "maxOccurs" with
    | some s => PyVal.str s
    | none => PyVal.int 1
  max.gtIntOne || max.eqStrUnbounded

/-- `SchemaProperty.unbounded` (schema.py:155-157): the base class and every
variant other than `Element` report `False`. -/
def SchemaProperty.unbounded : Bool := false

/-- Python `value.split(sep)` on a single-character separator, over the
character list: keeps empty fields, `[] -> [""]`-style. -/
def pySplit (sep : Char) : List Char → List (List Char)
  | [] => [[]]
  | c :: cs =>
    let r := pySplit sep cs
    if c = sep then
      [] :: r
    else
      match r with
      | [] => [[c]]
      | g :: gs => (c :: g) :: gs

/-- Python `s.split(sep)` for a one-character separator, on `String`. -/
def pySplitStr (sep : Char) (s : String) : List String :=
  (pySplit sep s.toList).map (fun l => String.mk l)

/-- The concrete class of a schema definition object, used by the `__cmp__`
methods (schema.py:219-223, 250-254, 425-429) which dispatch on
`isinstance`.  `Extension` is a subclass of `Complex`. -/
inductive DefnKind where
  | imp
  | complex
  | extension
  | simple
  | sequence
  | complexContent
  | enumeration
  | element
deriving DecidableEq

/-- A constructed schema definition object (`SchemaProperty` subclass
instance) after child assembly: its class, the value its `get_name()`
returns, the value its `get_type()` returns (`some "_"` is the base-class
sentinel, schema.py:137-139), and its assembled child list. -/
inductive Defn where
  | mk (kind : DefnKind) (name : Option String) (type : Option String)
       (children : List Defn)

def Defn.kind : Defn → DefnKind
  | .mk k _ _ _ => k

def Defn.name : Defn → Option String
  | .mk _ n _ _ => n

def Defn.type : Defn → Option String
  | .mk _ _ t _ => t

def Defn.children : Defn → List Defn
  | .mk _ _ _ c => c

/-- Which classes define a `__cmp__` method (`Import`, `Complex` — hence
also `Extension` by inheritance — and `Simple`). -/
def hasCmp : DefnKind → Bool
  | .imp | .complex | .extension | .simple => true
  | _ => false

/-- The defined `__cmp__` methods: `Import.__cmp__` returns -1 against an
`isinstance(other, Complex)` (so also `Extension`), `Complex.__cmp__`
returns -1 against `Simple` or `Element`, `Simple.__cmp__` returns -1
against `Element`; all return 0 otherwise. -/
def cmpMethod : DefnKind → DefnKind → Int
  | .imp, .complex => -1
  | .imp, .extension => -1
  | .complex, .simple => -1
  | .complex, .element => -1
  | .extension, .simple => -1
  | .extension, .element => -1
  | .simple, .element => -1
  | _, _ => 0

/-- CPython 2 `cmp(a, b)` on two schema definition objects: the first
operand's `__cmp__` when its class defines one, else the second's
reflected and negated.  When neither class defines `__cmp__` (two
`Element`s, say) CPython's `default_3way_compare` orders the two
same-class instances by object address.  Addresses are allocator state,
not observable in the source, so the embedding takes the address
assignment `addr` as an explicit parameter: theorems state which
conclusions hold for every assignment and which only for assignments
that follow document order. -/
def pyCmp (addr : Defn → Nat) (a b : Defn) : Int :=
  if hasCmp a.kind then cmpMethod a.kind b.kind
  else if hasCmp b.kind then -(cmpMethod b.kind a.kind)
  else if addr a < addr b then -1
  else if addr b < addr a then 1
  else 0

/-- Stable insertion: `x` (earlier in the original list) goes before the
first element it does not compare greater than. -/
def pyInsert (cmp : Defn → Defn → Int) (x : Defn) : List Defn → List Defn
  | [] => [x]
  | y :: ys => if cmp x y ≤ 0 then x :: y :: ys else y :: pyInsert cmp x ys

/-- Python 2 `list.sort()` with the `__cmp__`-derived comparator, modelled
as a stable insertion sort (CPython's sort is stable; ties keep document
order). -/
def pySort (cmp : Defn → Defn → Int) : List Defn → List Defn
  | [] => []
  | x :: xs => pyInsert cmp x (pySort cmp xs)

/-- `SchemaProperty.get_child(name)` (schema.py:148-153): first child whose
`get_name()` equals `name`.  A `None` name never equals a string in
Python. -/
def SchemaProperty.get_child (d : Defn) (nm : String) : Option Defn :=
  d.children.find? (fun c => c.name == some nm)

/-- First loop of `Schema.__lookup` (schema.py:93-102): scan the top-level
definitions; an anonymous child is searched through `get_child(parts[0])`,
a named child matches when its name equals `parts[0]` literally. -/
def Schema.lookupFirst (children : List Defn) (seg : String) : Option Defn :=
  match children with
  | [] => none
  | c :: rest =>
    match c.name with
    | none =>
      match SchemaProperty.get_child c seg with
      | some r => some r
      | none => Schema.lookupFirst rest seg
    | some n => if n = seg then some c else Schema.lookupFirst rest seg

/-- Second loop of `Schema.__lookup` (schema.py:103-108): walk the
remaining dotted segments with `get_child` then `resolve` (the latter
abstracted as `resolveFn`, see `Schema.findType`). -/
def Schema.descend (resolveFn : Defn → Defn) (r : Option Defn) :
    List String → Option Defn
  | [] => r
  | nm :: rest =>
    match r with
    | none => none
    | some d =>
      match SchemaProperty.get_child d nm with
      | none => none
      | some r2 => Schema.descend resolveFn (some (resolveFn r2)) rest

/-- `Schema.__lookup(path)` (schema.py:86-109): split the path on dots,
match the first segment against the top-level definitions, then descend.
`resolveFn` stands for `SchemaProperty.resolve` against the owning
registry; it is a parameter because the Python mutual recursion of
`resolve`/`get_type`/`__lookup` is not well-founded on cyclic schemas
(spec §9 names this a known non-terminating case). -/
def Schema.findType (resolveFn : Defn → Defn) (children : List Defn)
    (path : String) : Option Defn :=
  match pySplitStr '.' path with
  | [] => none
  | p0 :: rest => Schema.descend resolveFn (Schema.lookupFirst children p0) rest

/-- The `Schema.types` cache: a Python dict from path to the stored lookup
result, which may itself be `None` (a stored miss). -/
structure SchemaState where
  types : List (String × Option Defn)

/-- Python `self.types.get(path, None)` (schema.py:80): the stored value
when the key is present — which may be the stored `None` — and `None`
when the key is absent.  A stored miss is therefore indistinguishable
from an absent entry. -/
def cacheGet (m : List (String × Option Defn)) (k : String) : Option Defn :=
  match m.lookup k with
  | some v => v
  | none => none

/-- `Schema.get_type(path)` (schema.py:74-84) with the underlying
`__lookup` abstracted as `lookup`: read the cache, on (apparent) miss run
the lookup and store its result (even `None`).  The extra `Bool` records
whether `__lookup` was invoked by this call. -/
def Schema.get_type (lookup : String → Option Defn) (st : SchemaState)
    (path : String) : Option Defn × SchemaState × Bool :=
  match cacheGet st.types path with
  | some d => (some d, st, false)
  | none => (lookup path, ⟨(path, lookup path) :: st.types⟩, true)

/-- `SchemaProperty.builtin` (schema.py:176-182):
`prefix = self.get_type().split()[0]; return prefix.startswith('xs')`
inside a bare `try/except` returning `False`.  `None.split()` raises
(caught), `''.split()[0]` raises IndexError (caught); otherwise the first
whitespace-delimited token of the whole type string is tested with
`startswith('xs')`. -/
def SchemaProperty.builtin (t : Option String) : Bool :=
  match t with
  | none => false
  | some s =>
    match (s.toList.dropWhile Char.isWhitespace) with
    | [] => false
    | c :: cs =>
      "xs".toList.isPrefixOf ((c :: cs).takeWhile (fun ch => !ch.isWhitespace))

/-- `SchemaProperty.custom` (schema.py:169-174): `False` for a `None`
type, else the negation of `builtin`. -/
def SchemaProperty.custom (t : Option String) : Bool :=
  match t with
  | none => false
  | some _ => !SchemaProperty.builtin t

/-- `SchemaProperty.resolve` (schema.py:159-167): start from `self`; when
`custom()`, look the declared type name up in the owning registry
(`lookup` stands for `self.schema.get_type`) and substitute the result
when it is not `None`. -/
def SchemaProperty.resolve (lookup : String → Option Defn) (d : Defn) : Defn :=
  if SchemaProperty.custom d.type then
    match d.type with
    | some t =>
      match lookup t with
      | some r => r
      | none => d
    | none => d
  else d

/-- The merged list built by `Extension.__add_children` (schema.py:346-354)
before the trailing sort: the base type's children inserted at indices
0, 1, ... ahead of the extension's own (already sorted) children; when
the base lookup returned `None` the method returns early and the list
stays the own children alone. -/
def Extension.premerge (superDefn : Option Defn) (ownSorted : List Defn) :
    List Defn :=
  match superDefn with
  | none => ownSorted
  | some s => s.children ++ ownSorted

/-- `Extension` child assembly (schema.py:336-354): `Complex.__init__`
assembles the extension's own children (`own`) and sorts them;
`Extension.__add_children` then inserts the base type's children —
`superDefn` is `self.schema.get_type(base-attribute)` — at indices
0, 1, ... ahead of them, and the list is sorted again.  `addr` is the
address assignment used by the sort's no-`__cmp__` fallback. -/
def Extension.assemble (addr : Defn → Nat) (superDefn : Option Defn)
    (own : List Defn) : List Defn :=
  pySort (pyCmp addr) (Extension.premerge superDefn (pySort (pyCmp addr) own))

/-- `Enumeration.get_name` (schema.py:300-302): the method's body reads
`self.root.attribute('attribute')` (while its docstring says it gets the
`<xs:enumeration value=""/>` attribute value). -/
def Enumeration.get_name (root : Node) : Option String :=
  root.attribute "attribute"

/-- Outcome of `Parser().parse(url=uri).root()` inside `Import.__import`
(schema.py:381-394): either a parsed root node, or a raised exception.
`isTupleInst` records whether the exception object is an instance of the
builtin type `tuple`, because the handler is written `except tuple, e:`
and in Python 2 `except C` matches exactly the exceptions that are
instances of the class `C`. -/
inductive FetchOutcome where
  | ok (root : Node)
  | raises (isTupleInst : Bool) (msg : String)

/-- Control flow of `Import.__import` (schema.py:381-394) around the
retrieval/parse of the imported document: on success `self.imported` is
set (here `Except.ok (some root)`); a raised exception is caught — and
logged, construction continuing with `self.imported` left `None` — only
when it is an instance of the builtin `tuple` (the `except tuple, e:`
clause); any other exception propagates out of the `Import` constructor
(`Except.error`). -/
def Import.attemptImport (fetch : FetchOutcome) : Except String (Option Node) :=
  match fetch with
  | .ok r => Except.ok (some r)
  | .raises isTup m => if isTup then Except.ok none else Except.error m

/-- Python `value[1]`: the character at index 1 of the string, as a
one-character string (an out-of-range index raises IndexError in Python;
that case is modelled as the empty string and does not arise at the
inputs considered). -/
def charAtOne (s : String) : String :=
  match s.toList with
  | _ :: c :: _ => String.mk [c]
  | _ => ""

/-- Body of the loop of `Import.__update_references` (schema.py:414-423)
for one attribute value: when the value contains a colon and
`value.split(':')[0]` equals the old name-prefix (`oldp`), the new value
is `':'.join((prefixes[1], value[1]))` — the new name-prefix joined with
the character at index 1 of the whole original value (the source reads
`value[1]`, not the split's local part `p[1]`). -/
def Import.update_value (oldp newp : String) (v : String) : String :=
  if v.toList.contains ':' then
    match pySplitStr ':' v with
    | p0 :: _ => if p0 = oldp then newp ++ ":" ++ charAtOne v else v
    | [] => v
  else v

/-- `Import.__update_references` (schema.py:414-423) over the values of
`imp_root.flattenedAttributes()`: `None` values are skipped, others are
rewritten by `Import.update_value`. -/
def Import.update_references (oldp newp : String) (vals : List (Option String)) :
    List (Option String) :=
  vals.map (fun o =>
    match o with
    | none => none
    | some v => some (Import.update_value oldp newp v))

/-- `SchemaCollection.get_type(path)` (schema.py:22-32): try each member
schema in list order and return the first non-`None` result, `None` when
every member misses.  Each member schema is embedded by its `get_type`
lookup function; the `Nat` counts how many member lookups the loop
invoked (the loop returns as soon as one succeeds). -/
def SchemaCollection.get_type (schemas : List (String → Option Defn))
    (path : String) : Option Defn × Nat :=
  match schemas with
  | [] => (none, 0)
  | s :: rest =>
    match s path with
    | some r => (some r, 1)
    | none =>
      let t := SchemaCollection.get_type rest path
      (t.1, t.2 + 1)

/-- Follows the spec's words (§4.1) for the `stripns` helper — the
registry in the source has no such function: the substring after the
first colon when one is present, the input unchanged otherwise, null for
null input. -/
def stripnsSpec : Option String → Option String
  | none => none
  | some s =>
    if s.toList.contains ':' then
      some (String.mk ((s.toList.dropWhile (fun c => c ≠ ':')).drop 1))
    else some s

/-- Follows the spec's words (§4.1) for builtin classification, for
comparison with `SchemaProperty.builtin`: a type reference is builtin
exactly when its namespace name-prefix (the part before the colon, when a
colon is present) is one of the reserved schema/instance prefixes. -/
def builtinSpec (s : String) : Bool :=
  if s.toList.contains ':' then
    ["xs", "xsd", "xsi"].contains (String.mk (s.toList.takeWhile (fun c => c ≠ ':')))
  else false

/-- Python `s.split()[0]` as a total function: the first
whitespace-delimited token of `s`, `none` when `s` is empty or all
whitespace (where Python raises IndexError). -/
def firstTokenWs (s : String) : Option String :=
  match s.toList.dropWhile Char.isWhitespace with
  | [] => none
  | c :: cs => some (String.mk ((c :: cs).takeWhile (fun ch => !ch.isWhitespace)))

/-! Concrete inputs used by witnesses and counterexamples. -/

/-- A top-level element definition named `Foo`. -/
def fooDefn : Defn := .mk .element (some "Foo") none []

/-- A complex type definition named `Person`. -/
def personDefn : Defn := .mk .complex (some "Person") none []

/-- An element field declared with the custom type reference
`tns:Person`. -/
def fieldDefn : Defn := .mk .element (some "p") (some "tns:Person") []

/-- A registry lookup that resolves `tns:Person` to `personDefn`. -/
def lookupW : String → Option Defn :=
  fun t => if t = "tns:Person" then some personDefn else none

/-- Element definitions `x`, `y` (children of a base type) and `z` (an
extension's own child). -/
def elemX : Defn := .mk .element (some "x") none []

def elemY : Defn := .mk .element (some "y") none []

def elemZ : Defn := .mk .element (some "z") none []

/-- A base complex type `A` with children `[x, y]`. -/
def baseA : Defn := .mk .complex (some "A") none [elemX, elemY]

/-- An address assignment that allocated `y` at a lower address than `x`
(CPython gives no guarantee about instance addresses; free-list reuse
can produce any order). -/
def addrRevW : Defn → Nat :=
  fun d =>
    match d.name with
    | some "x" => 2
    | some "y" => 1
    | _ => 3

/-- An address assignment that follows document order. -/
def addrDocW : Defn → Nat :=
  fun d =>
    match d.name with
    | some "x" => 1
    | some "y" => 2
    | _ => 3

/-- A two-member schema collection: the first member misses every path,
the second resolves every path to `personDefn`. -/
def schemasW : List (String → Option Defn) :=
  [fun _ => none, fun _ => some personDefn]

end Suds

namespace Suds

/-- C3 (code evaluation): `Element.unbounded` on an element carrying
`maxOccurs="1"` returns `true` — the attribute arrives as the string
`'1'` and CPython 2 orders every string above every int, so `'1' > 1`
holds — while the claim (and the method's own docstring, "maxOccurs > 1
or unbounded") requires `false`.  An absent attribute (int default `1`)
and the non-`Element` base implementation do return `false`. -/
theorem unbounded_maxOccurs_one_true :
    Element.unbounded ⟨"element", [("maxOccurs", "1")], []⟩ = true ∧
    Element.unbounded ⟨"element", [("maxOccurs", "unbounded")], []⟩ = true ∧
    Element.unbounded ⟨"element", [], []⟩ = false ∧
    SchemaProperty.unbounded = false := by
  refine ⟨rfl, rfl, rfl, rfl⟩

/-- C2 (code evaluation): a retrieval/parse failure that is an ordinary
exception (an IOError, say — not an instance of the builtin `tuple`
type) propagates out of the `Import` constructor, because the handler
`except tuple, e:` matches only tuple instances; only a (practically
unraisable) tuple-instance exception is caught and absorbed. -/
theorem import_error_propagates :
    Import.attemptImport (.raises false "connection refused")
        = Except.error "connection refused" ∧
    Import.attemptImport (.raises true "tuple exception")
        = Except.ok none := by
  refine ⟨rfl, rfl⟩

/-- C4 (code evaluation): rewriting the attribute value `"ns2:Foo"` from
old name-prefix `ns2` to new name-prefix `ns1` produces `"ns1:s"` — the
source joins the new name-prefix with `value[1]`, the character at index
1 of the whole original value (here `'s'`), instead of the split's local
part `p[1]` — where the claim requires `"ns1:Foo"`. -/
theorem update_value_drops_local_part :
    Import.update_value "ns2" "ns1" "ns2:Foo" = "ns1:s" ∧
    Import.update_references "ns2" "ns1" [some "ns2:Foo", some "other", none]
        = [some "ns1:s", some "other", none] := by
  refine ⟨by decide, by decide⟩

/-- C9 (code evaluation): on an enumeration node whose `value` attribute
is `"RED"`, `Enumeration.get_name` returns `none` — the method body reads
the attribute named `attribute`, not `value`, contradicting its own
docstring — while the claim requires `some "RED"`. -/
theorem enumeration_get_name_reads_wrong_attribute :
    Enumeration.get_name ⟨"enumeration", [("value", "RED")], []⟩ = none ∧
    Node.attribute ⟨"enumeration", [("value", "RED")], []⟩ "value"
        = some "RED" := by
  refine ⟨rfl, rfl⟩

/-- C1 (counterexample): with an underlying lookup that misses `"Foo"`,
the first `get_type "Foo"` call stores the not-found result in the cache
(second conjunct), yet the second call still invokes the underlying
lookup (`true` invocation flag, first conjunct): a stored `None` is
indistinguishable from an absent entry under `dict.get(path, None)`.
The returned results are nevertheless equal (third conjunct). -/
theorem get_type_miss_reresolved :
    (Schema.get_type (fun _ => none)
        (Schema.get_type (fun _ => none) ⟨[]⟩ "Foo").2.1 "Foo").2.2 = true ∧
    (Schema.get_type (fun _ => none) ⟨[]⟩ "Foo").2.1.types = [("Foo", none)] ∧
    (Schema.get_type (fun _ => none)
        (Schema.get_type (fun _ => none) ⟨[]⟩ "Foo").2.1 "Foo").1
      = (Schema.get_type (fun _ => none) ⟨[]⟩ "Foo").1 := by
  refine ⟨rfl, rfl, rfl⟩

/-- C1 (amended): for every cache state, a second `get_type` call on the
same path returns a result equal to the first call's, and the second
call re-invokes the underlying lookup exactly when the first call's
result was null (a not-found result is re-resolved; a found result is a
pure cache hit). -/
theorem get_type_second_call (lookup : String → Option Defn)
    (st : SchemaState) (p : String) :
    (Schema.get_type lookup (Schema.get_type lookup st p).2.1 p).1
        = (Schema.get_type lookup st p).1 ∧
    ((Schema.get_type lookup (Schema.get_type lookup st p).2.1 p).2.2 = true ↔
        (Schema.get_type lookup st p).1 = none) := by
  cases h : cacheGet st.types p with
  | some d =>
      simp [Schema.get_type, h]
  | none =>
      cases hl : lookup p with
      | some d =>
          have h2 : cacheGet ((p, some d) :: st.types) p = some d := by
            simp [cacheGet, List.lookup]
          simp [Schema.get_type, h, hl, h2]
      | none =>
          have h2 : cacheGet ((p, none) :: st.types) p = none := by
            simp [cacheGet, List.lookup]
          simp [Schema.get_type, h, hl, h2]

/-- C5 (counterexample): the registry does not strip namespace
name-prefixes when matching the first path segment.  With a single
top-level definition named `Foo`, looking up `"tns:Foo"` returns null,
although the spec-worded `stripns` maps `"tns:Foo"` to `"Foo"`, which is
exactly the definition's name (looking up the bare `"Foo"` succeeds).
No `stripns` function exists in the source; `Schema.__lookup` compares
`parts[0]` to each name literally. -/
theorem lookup_first_segment_not_stripped :
    Schema.findType id [fooDefn] "tns:Foo" = none ∧
    stripnsSpec (some "tns:Foo") = some "Foo" ∧
    fooDefn.name = some "Foo" ∧
    Schema.findType id [fooDefn] "Foo" = some fooDefn := by
  refine ⟨rfl, by decide, rfl, rfl⟩

/-- C5 (amended): for a dot-free path `p`, `Schema.__lookup` runs only
its first loop, and that loop matches `p` against the top-level
definitions literally: the result is the first definition that is
either named exactly `p` (plain string equality — no name-prefix
stripping anywhere) or anonymous with a child named exactly `p`. -/
theorem findType_first_segment_literal (rf : Defn → Defn)
    (children : List Defn) (p : String) (hp : pySplitStr '.' p = [p]) :
    Schema.findType rf children p
      = children.findSome? (fun c =>
          match c.name with
          | none => SchemaProperty.get_child c p
          | some n => if n = p then some c else none) := by
  have hred : Schema.findType rf children p = Schema.lookupFirst children p := by
    unfold Schema.findType
    rw [hp]
    rfl
  rw [hred]
  clear hred
  induction children with
  | nil => rfl
  | cons c cs ih =>
    cases hc : c.name with
    | none =>
        cases hg : SchemaProperty.get_child c p with
        | some r => simp [Schema.lookupFirst, List.findSome?, hc, hg]
        | none => simpa [Schema.lookupFirst, List.findSome?, hc, hg] using ih
    | some n =>
      by_cases hnp : n = p
      · subst hnp
        simp [Schema.lookupFirst, List.findSome?, hc]
      · simpa [Schema.lookupFirst, List.findSome?, hc, hnp] using ih

/-- Witness for the C5 amended theorem at a concrete input: one named
definition, path `"Bar"`. -/
theorem findType_first_segment_literal_witness :
    Schema.findType id [fooDefn] "Bar"
      = [fooDefn].findSome? (fun c =>
          match c.name with
          | none => SchemaProperty.get_child c "Bar"
          | some n => if n = "Bar" then some c else none) :=
  findType_first_segment_literal id [fooDefn] "Bar" (by decide)

/-- C8 (counterexample): the declared type reference `"xsFoo"` carries no
colon-delimited namespace name-prefix at all — so under the claim's
classification (reserved schema/instance prefixes) it is not builtin —
yet `SchemaProperty.builtin` classifies it builtin, because the code
tests `startswith('xs')` on the whole first whitespace token; it is
consequently not custom and not eligible for registry lookup. -/
theorem builtin_not_only_reserved :
    SchemaProperty.builtin (some "xsFoo") = true ∧
    builtinSpec "xsFoo" = false ∧
    SchemaProperty.custom (some "xsFoo") = false := by
  refine ⟨by decide, by decide, by decide⟩

/-- C8 (amended): a non-null declared type reference is classified
builtin exactly when the first whitespace-delimited token of the whole
reference string starts with `"xs"` (so `xs:`, `xsd:`, `xsi:` qualify,
but so do e.g. unprefixed names beginning with `xs`); a reference with
no such token is not builtin; a non-null reference is custom exactly
when it is not builtin; a null reference is neither. -/
theorem builtin_first_token_xs (s : String) :
    (∀ tok, firstTokenWs s = some tok →
      (SchemaProperty.builtin (some s) = true ↔
        "xs".toList.isPrefixOf tok.toList = true)) ∧
    (firstTokenWs s = none → SchemaProperty.builtin (some s) = false) ∧
    SchemaProperty.custom (some s) = !SchemaProperty.builtin (some s) ∧
    SchemaProperty.builtin none = false := by
  refine ⟨?_, ?_, rfl, rfl⟩
  · intro tok htok
    unfold firstTokenWs at htok
    cases hd : s.toList.dropWhile Char.isWhitespace with
    | nil => rw [hd] at htok; exact absurd htok (by simp)
    | cons c cs =>
        rw [hd] at htok
        injection htok with htok
        subst htok
        simp only [SchemaProperty.builtin]
        rw [hd]
        exact Iff.rfl
  · intro htok
    unfold firstTokenWs at htok
    cases hd : s.toList.dropWhile Char.isWhitespace with
    | nil =>
        simp only [SchemaProperty.builtin]
        rw [hd]
    | cons c cs => rw [hd] at htok; exact absurd htok (by simp)

/-- Witness for the C8 amended theorem at the concrete reference
`"tns:Person"`, whose first token is `"tns:Person"` and is not
builtin. -/
theorem builtin_first_token_xs_witness :
    SchemaProperty.builtin (some "tns:Person") = true ↔
      "xs".toList.isPrefixOf "tns:Person".toList = true :=
  ((builtin_first_token_xs "tns:Person").1 "tns:Person" (by decide))

/-- Inserting one element permutes: the result holds the inserted element
and the old list's elements. -/
theorem pyInsert_perm (cmp : Defn → Defn → Int) (x : Defn) (l : List Defn) :
    (pyInsert cmp x l).Perm (x :: l) := by
  induction l with
  | nil => exact List.Perm.refl _
  | cons y ys ih =>
      by_cases h : cmp x y ≤ 0
      · simp [pyInsert, h]
      · simp only [pyInsert, if_neg h]
        exact (ih.cons y).trans (List.Perm.swap x y ys)

/-- The embedded `list.sort()` permutes its input, whatever the
comparator. -/
theorem pySort_perm (cmp : Defn → Defn → Int) (l : List Defn) :
    (pySort cmp l).Perm l := by
  induction l with
  | nil => exact List.Perm.refl _
  | cons x xs ih => exact (pyInsert_perm cmp x (pySort cmp xs)).trans (ih.cons x)

/-- C6 (counterexample): with base type `A` (children `[x, y]`) and own
child `[z]`, an address assignment that allocated `y` at a lower address
than `x` makes the trailing `list.sort()` of `Extension.__init__` order
the final child list `[y, x, z]` (shown by its name sequence), not the
claimed `[x, y, z]`: element definitions define no `__cmp__`, CPython 2
compares them by object address, and the program gives no guarantee
about addresses, so the claimed final order is not guaranteed. -/
theorem extension_sort_address_dependent :
    (Extension.assemble addrRevW (some baseA) [elemZ]).map Defn.name
        = [some "y", some "x", some "z"] ∧
    ([some "y", some "x", some "z"] : List (Option String))
        ≠ [some "x", some "y", some "z"] := by
  refine ⟨rfl, by decide⟩

/-- C6 (amended): the list `Extension.__add_children` builds before the
trailing sort is exactly the base's full child list prepended — in
order, unmerged and undeduplicated — ahead of the extension's own
children, `[x, y, z]`; the trailing `list.sort()` can only permute that
list (for every address assignment), and leaves it exactly `[x, y, z]`
whenever the element definitions' addresses follow document order. -/
theorem extension_children_order_addr (addr : Defn → Nat) (x y z a : Defn)
    (hx : x.kind = DefnKind.element) (hy : y.kind = DefnKind.element)
    (hz : z.kind = DefnKind.element) (ha : a.children = [x, y]) :
    Extension.premerge (some a) (pySort (pyCmp addr) [z]) = [x, y, z] ∧
    (Extension.assemble addr (some a) [z]).Perm [x, y, z] ∧
    (addr x < addr y ∧ addr y < addr z →
      Extension.assemble addr (some a) [z] = [x, y, z]) := by
  have hsingle : pySort (pyCmp addr) [z] = [z] := rfl
  have hpre : Extension.premerge (some a) (pySort (pyCmp addr) [z])
      = [x, y, z] := by
    rw [hsingle]
    simp [Extension.premerge, ha]
  refine ⟨hpre, ?_, ?_⟩
  · show (pySort (pyCmp addr)
        (Extension.premerge (some a) (pySort (pyCmp addr) [z]))).Perm [x, y, z]
    rw [hpre]
    exact pySort_perm (pyCmp addr) [x, y, z]
  · rintro ⟨hxy, hyz⟩
    show pySort (pyCmp addr)
        (Extension.premerge (some a) (pySort (pyCmp addr) [z])) = [x, y, z]
    rw [hpre]
    have hyz' : pyCmp addr y z ≤ 0 := by
      simp [pyCmp, hasCmp, hy, hz, hyz]
    have hxy' : pyCmp addr x y ≤ 0 := by
      simp [pyCmp, hasCmp, hx, hy, hxy]
    simp [pySort, pyInsert, hyz', hxy']

/-- Witness for the C6 amended theorem: under a document-ordered address
assignment the final child list is exactly `[x, y, z]`. -/
theorem extension_children_order_addr_witness :
    Extension.assemble addrDocW (some baseA) [elemZ]
      = [elemX, elemY, elemZ] :=
  (extension_children_order_addr addrDocW elemX elemY elemZ baseA
      rfl rfl rfl rfl).2.2 ⟨by decide, by decide⟩

/-- C7: `resolve()` returns the definition itself when its declared type
is null or builtin, and also when the registry lookup of the type name
misses; it returns the registry's definition exactly when the type is
non-null, not builtin, and the lookup succeeds.  (The embedding is a
total function into `Defn`, mirroring that the Python method starts from
`result = self` and only ever replaces it with a non-`None` lookup
result: it can return neither `None` nor raise.) -/
theorem resolve_cases (lookup : String → Option Defn) (d : Defn) :
    ((d.type = none ∨ SchemaProperty.builtin d.type = true) →
      SchemaProperty.resolve lookup d = d) ∧
    (∀ t, d.type = some t → SchemaProperty.builtin d.type = false →
      lookup t = none → SchemaProperty.resolve lookup d = d) ∧
    (∀ t r, d.type = some t → SchemaProperty.builtin d.type = false →
      lookup t = some r → SchemaProperty.resolve lookup d = r) := by
  refine ⟨?_, ?_, ?_⟩
  · rintro (h | h)
    · simp [SchemaProperty.resolve, SchemaProperty.custom, h]
    · cases ht : d.type with
      | none => simp [SchemaProperty.resolve, SchemaProperty.custom, ht]
      | some t =>
          rw [ht] at h
          simp [SchemaProperty.resolve, SchemaProperty.custom, ht, h]
  · intro t ht hb hl
    rw [ht] at hb
    simp [SchemaProperty.resolve, SchemaProperty.custom, ht, hb, hl]
  · intro t r ht hb hl
    rw [ht] at hb
    simp [SchemaProperty.resolve, SchemaProperty.custom, ht, hb, hl]

/-- Witness for C7: the field declared with custom type `tns:Person`
resolves, through a registry that defines `Person` under that key, to the
`Person` definition. -/
theorem resolve_cases_witness :
    SchemaProperty.resolve lookupW fieldDefn = personDefn :=
  (resolve_cases lookupW fieldDefn).2.2 "tns:Person" personDefn rfl
    (by decide) rfl

/-- When the collection loop returns a non-null result it consulted at
least one member. -/
theorem collection_count_pos (schemas : List (String → Option Defn))
    (path : String) (d : Defn)
    (h : (SchemaCollection.get_type schemas path).1 = some d) :
    1 ≤ (SchemaCollection.get_type schemas path).2 := by
  cases schemas with
  | nil => simp [SchemaCollection.get_type] at h
  | cons s rest =>
      cases hs : s path with
      | some r => simp [SchemaCollection.get_type, hs]
      | none => simp [SchemaCollection.get_type, hs]

/-- C10: `SchemaCollection.get_type` returns the first member schema's
non-null result in list order (the `findSome?` of the member lookups);
when every member misses it returns null having consulted all members;
and when it returns a non-null result, every member before the answering
one returned null and the answering member is the last one consulted —
no schema after the first successful one is consulted. -/
theorem collection_first_hit (schemas : List (String → Option Defn))
    (path : String) :
    (SchemaCollection.get_type schemas path).1
        = (schemas.map (fun s => s path)).findSome? id ∧
    ((SchemaCollection.get_type schemas path).1 = none →
        (SchemaCollection.get_type schemas path).2 = schemas.length) ∧
    (∀ d, (SchemaCollection.get_type schemas path).1 = some d →
        (((schemas.map (fun s => s path)).take
            ((SchemaCollection.get_type schemas path).2 - 1)).all
          Option.isNone) = true ∧
        ((schemas.map (fun s => s path)).get?
            ((SchemaCollection.get_type schemas path).2 - 1))
          = some (some d)) := by
  induction schemas with
  | nil => simp [SchemaCollection.get_type]
  | cons s rest ih =>
      obtain ⟨ih1, ih2, ih3⟩ := ih
      cases hs : s path with
      | some r =>
          refine ⟨?_, ?_, ?_⟩
          · simp [SchemaCollection.get_type, hs, List.findSome?]
          · intro hnone
            simp [SchemaCollection.get_type, hs] at hnone
          · intro d hd
            simp [SchemaCollection.get_type, hs] at hd
            subst hd
            simp [SchemaCollection.get_type, hs]
      | none =>
          refine ⟨?_, ?_, ?_⟩
          · simp [SchemaCollection.get_type, hs, ih1, List.findSome?]
          · intro hnone
            simp [SchemaCollection.get_type, hs] at hnone ⊢
            exact ih2 hnone
          · intro d hd
            simp [SchemaCollection.get_type, hs] at hd
            have hpos := collection_count_pos rest path d hd
            obtain ⟨ha, hg⟩ := ih3 d hd
            have hn : (SchemaCollection.get_type rest path).2
                = ((SchemaCollection.get_type rest path).2 - 1) + 1 :=
              (Nat.succ_pred_eq_of_pos hpos).symm
            constructor
            · simp only [SchemaCollection.get_type, hs, List.map_cons,
                Nat.add_sub_cancel]
              rw [hn, List.take_succ_cons, List.all_cons]
              simpa using ha
            · simp only [SchemaCollection.get_type, hs, List.map_cons,
                Nat.add_sub_cancel]
              rw [hn, List.get?_cons_succ]
              exact hg

/-- Witness for C10: in a collection whose first member misses and whose
second resolves, the loop's answer sits at position `count - 1` and all
earlier consultations were null. -/
theorem collection_first_hit_witness :
    ((schemasW.map (fun s => s "T")).take
        ((SchemaCollection.get_type schemasW "T").2 - 1)).all
      Option.isNone = true ∧
    (schemasW.map (fun s => s "T")).get?
        ((SchemaCollection.get_type schemasW "T").2 - 1)
      = some (some personDefn) :=
  (collection_first_hit schemasW "T").2.2 personDefn rfl

end Suds
